import Mathlib

/-!
Shallow embedding of the vector-outline rasterizer core of assdraw-rs
(src/ass/outline.rs, src/ass/polyline.rs, src/ass/rasterizer.rs,
src/ass/utils.rs).  Machine integers (i32 / i64 / u32) are modelled as
`Int` / `Nat`; wherever the source can wrap a 32-bit quantity the
embedding reduces modulo `2 ^ 32` explicitly.  Fallible operations
(`Result`, `unwrap`, slice-to-array conversions, assertions) are
modelled with `Option` / explicit success flags, so that a panic of the
source corresponds to `none`.
-/

/-! ## utils.rs -/

/-- Embeds `i64_mul` from src/ass/utils.rs.  The source body is
`a as i64 + b as i64`: despite its name it returns the SUM of its
arguments, and this embedding reproduces that behaviour verbatim. -/
def i64_mul (a b : Int) : Int := a + b

/-- Embeds `u32_abs` from src/ass/utils.rs: the absolute value of an
i32 as a u32.  The source maps `i32::MIN` to `2147483648` and every
other value `n` to `|n|`, which on the i32 range is exactly
`Int.natAbs`. -/
def u32_abs (n : Int) : Nat := n.natAbs

/-! ## outline.rs : data model -/

/-- Embeds `Vector` from src/ass/outline.rs (i32 coordinates,
1 unit = 1/64 pixel). -/
structure Vector where
  x : Int
  y : Int
deriving DecidableEq

/-- Embeds `Rect` from src/ass/outline.rs. -/
structure Rect where
  x_min : Int
  y_min : Int
  x_max : Int
  y_max : Int
deriving DecidableEq

/-- Embeds `SegmentType` from src/ass/outline.rs. -/
inductive SegmentType where
  | LineSegment
  | QuadSpline
  | CubicSpline
deriving DecidableEq

/-- Embeds `Outline` from src/ass/outline.rs. -/
structure Outline where
  points : List Vector
  segments : List SegmentType
  start_of_final_contour : Option Nat
deriving DecidableEq

/-- Embeds `Outline::MAX_COORD = (1i32 << 28) - 1`. -/
def MAX_COORD : Int := 2 ^ 28 - 1

/-- Embeds `i32::saturating_abs`. -/
def saturating_abs (n : Int) : Int :=
  if n = -(2 ^ 31) then 2 ^ 31 - 1 else |n|

/-- Embeds `Outline::new` (capacities have no observable effect on the
model). -/
def Outline.new (_n_points _n_segments : Nat) : Outline :=
  { points := [], segments := [], start_of_final_contour := none }

/-- Embeds `Outline::add_point` from src/ass/outline.rs.  The returned
`Bool` is the success flag (`Ok` / `Err`); the returned `Outline` is
the post-state, so an `Err` that left the receiver untouched returns
the input outline unchanged. -/
def add_point (o : Outline) (pt : Vector) (tag : Option SegmentType) :
    Bool × Outline :=
  if saturating_abs pt.x > MAX_COORD ∨ saturating_abs pt.y > MAX_COORD then
    (false, o)
  else
    let o1 : Outline := { o with points := o.points ++ [pt] }
    let o2 : Outline :=
      match tag with
      | some t => { o1 with segments := o1.segments ++ [t] }
      | none => o1
    let o3 : Outline :=
      if o2.start_of_final_contour = none then
        { o2 with start_of_final_contour := some (o2.points.length - 1) }
      else o2
    (true, o3)

/-- Embeds `Outline::close_contour` from src/ass/outline.rs.  `none`
models a panic (an out-of-range recorded index or a failed `unwrap`
of `add_point`); the early `return`s of the source yield the outline
unchanged. -/
def close_contour (o : Outline) : Option Outline :=
  match o.points.getLast? with
  | none => some o
  | some p0 =>
    match o.start_of_final_contour with
    | none => some o
    | some i =>
      match o.points.get? i with
      | none => none
      | some p1 =>
        let o' : Outline := { o with start_of_final_contour := none }
        match add_point o' p0 (some SegmentType.LineSegment) with
        | (false, _) => none
        | (true, o2) =>
          match add_point o2 p1 none with
          | (false, _) => none
          | (true, o3) => some o3

/-- Embeds `Segment` (the materialized segment enum) from
src/ass/outline.rs. -/
inductive Segment where
  | LineSegment : Vector → Vector → Segment
  | QuadSpline : Vector → Vector → Vector → Segment
  | CubicSpline : Vector → Vector → Vector → Vector → Segment
deriving DecidableEq

/-- Embeds the `Segments` iterator (`Segments::next` in
src/ass/outline.rs), run to exhaustion: each tag takes its points via
`next_tuple`, which consumes 2 / 3 / 4 points for Line / Quad / Cubic
and yields `None` (ending the iteration) when fewer remain. -/
def segmentsList : List SegmentType → List Vector → List Segment
  | [], _ => []
  | SegmentType.LineSegment :: ts, p0 :: p1 :: pts =>
      Segment.LineSegment p0 p1 :: segmentsList ts pts
  | SegmentType.QuadSpline :: ts, p0 :: p1 :: p2 :: pts =>
      Segment.QuadSpline p0 p1 p2 :: segmentsList ts pts
  | SegmentType.CubicSpline :: ts, p0 :: p1 :: p2 :: p3 :: pts =>
      Segment.CubicSpline p0 p1 p2 p3 :: segmentsList ts pts
  | _ :: _, _ => []

/-! ## polyline.rs -/

namespace Polyline

/-- Embeds the `SegmentFlags` bitflag set from src/ass/polyline.rs
(flags `Dn`, `UlDr`, `ExactLeft`, `ExactRight`, `ExactTop`,
`ExactBottom`) as one Boolean per flag. -/
structure SegmentFlags where
  dn : Bool
  uldr : Bool
  exactLeft : Bool
  exactRight : Bool
  exactTop : Bool
  exactBottom : Bool
deriving DecidableEq

/-- Embeds `Segment` (the polyline halfplane segment) from
src/ass/polyline.rs, with the source's field order. -/
structure Segment where
  c : Int
  a : Int
  b : Int
  scale : Int
  flags : SegmentFlags
  x_min : Int
  x_max : Int
  y_min : Int
  y_max : Int
deriving DecidableEq

/-- Embeds `Segment::split_horz` from src/ass/polyline.rs.  `none`
models the failure of the entry assertion
`assert!(x > self.x_min && x < self.x_max)`.  The first component is
the mutated receiver (`self`), the second is `next`. -/
def Segment.split_horz (s : Segment) (x : Int) : Option (Segment × Segment) :=
  if x > s.x_min ∧ x < s.x_max then
    let fSelf : SegmentFlags := { s.flags with exactTop := false }
    let fNext : SegmentFlags := { s.flags with exactBottom := false }
    let fPair := if fSelf.uldr then (fNext, fSelf) else (fSelf, fNext)
    some
      ({ s with x_max := x, flags := { fPair.1 with exactRight := true } },
       { s with c := s.c - i64_mul s.a x, x_min := 0, x_max := s.x_max - x,
                flags := { fPair.2 with exactLeft := true } })
  else none

/-- Embeds `Segment::split_vert` from src/ass/polyline.rs.  Note that
the source updates `next.c` with `i64_mul(self.a, y)` — coefficient
`a`, not `b`. -/
def Segment.split_vert (s : Segment) (y : Int) : Option (Segment × Segment) :=
  if y > s.y_min ∧ y < s.y_max then
    let fSelf : SegmentFlags := { s.flags with exactLeft := false }
    let fNext : SegmentFlags := { s.flags with exactRight := false }
    let fPair := if fSelf.uldr then (fNext, fSelf) else (fSelf, fNext)
    some
      ({ s with y_max := y, flags := { fPair.1 with exactBottom := true } },
       { s with c := s.c - i64_mul s.a y, y_min := 0, y_max := s.y_max - y,
                flags := { fPair.2 with exactTop := true } })
  else none

end Polyline

/-! ## rasterizer.rs -/

/-- Embeds `upper_mul` from src/ass/rasterizer.rs:
`((a as u64 * b as u64) >> 32) as u32`, exact on u32 inputs. -/
def upper_mul (a b : Nat) : Nat := a * b / 2 ^ 32

/-- Embeds `compute_scale` from src/ass/rasterizer.rs in u32
arithmetic; the subtraction `0x8810_624D - upper_mul(0xBBC6A7EF, max_ab)`
and the subsequent addition wrap modulo `2 ^ 32`. -/
def compute_scale (max_ab : Nat) : Nat :=
  (upper_mul 0x53333333 (upper_mul max_ab max_ab) +
    (0x8810624D + 2 ^ 32 - upper_mul 0xBBC6A7EF max_ab)) % 2 ^ 32

/-- Reinterpret a u32 value (`v < 2 ^ 32`) as an i32 (the source's
`as i32` cast). -/
def i32_of_u32 (v : Nat) : Int :=
  if v < 2 ^ 31 then (v : Int) else (v : Int) - 2 ^ 32

/-- Bit length of `n`, with explicit fuel (enough fuel: any bound on
the number of bits). -/
def bitLen : Nat → Nat → Nat
  | 0, _ => 0
  | fuel + 1, n => if n = 0 then 0 else bitLen fuel (n / 2) + 1

/-- `u32::leading_zeros` for values `n < 2 ^ 32`. -/
def leading_zeros (n : Nat) : Nat := 32 - bitLen 32 n

/-- Embeds `RasterizerData::add_line` from src/ass/rasterizer.rs,
returning the segment pushed onto `linebuf[0]` (`none` when the
degenerate zero-direction early return pushes nothing).  Notes kept
from the source: `x_min` is computed as `pt0.x.min(pt0.x)` and `y_min`
as `pt0.y.min(pt0.y)`; the normalization multiplies `a`, `b`, `c` by
`1 << shift` with `shift = max_ab.leading_zeros() - 1` and feeds
`max_ab << (shift + 1)` (u32, hence mod `2 ^ 32`) to `compute_scale`. -/
def add_line (pt0 pt1 : Vector) : Option Polyline.Segment :=
  let x := pt1.x - pt0.x
  let y := pt1.y - pt0.y
  if x = 0 ∧ y = 0 then none
  else
    let flags0 : Polyline.SegmentFlags :=
      { dn := false, uldr := false, exactLeft := true, exactRight := true,
        exactTop := true, exactBottom := true }
    let flags1 := if x < 0 then { flags0 with uldr := !flags0.uldr } else flags0
    let flags2 :=
      if y ≥ 0 then { flags1 with dn := !flags1.dn, uldr := !flags1.uldr }
      else flags1
    let max_ab := max (u32_abs x) (u32_abs y)
    let shift := leading_zeros max_ab - 1
    some
      { c := (y * pt0.x - x * pt0.y) * 2 ^ shift
        a := y * 2 ^ shift
        b := -x * 2 ^ shift
        scale := i32_of_u32 (compute_scale ((max_ab <<< (shift + 1)) % 2 ^ 32))
        flags := flags2
        x_min := min pt0.x pt0.x
        x_max := max pt0.x pt1.x
        y_min := min pt0.y pt0.y
        y_max := max pt0.y pt1.y }

/-- Embeds `OutlineSegment` from src/ass/rasterizer.rs. -/
structure OutlineSegment where
  r : Vector
  r2 : Int
  er : Int

/-- Embeds `OutlineSegment::new`; `checked_abs().unwrap()` never fails
on the in-range differences that occur here, so it is the plain
absolute value. -/
def OutlineSegment.new (beg e : Vector) (outline_error : Int) : OutlineSegment :=
  let x := |e.x - beg.x|
  let y := |e.y - beg.y|
  { r := ⟨x, y⟩
    r2 := i64_mul x x + i64_mul y y
    er := i64_mul outline_error (max x y) }

/-- Embeds `OutlineSegment::subdivide` from src/ass/rasterizer.rs. -/
def OutlineSegment.subdivide (s : OutlineSegment) (beg pt : Vector) : Bool :=
  let x := pt.x - beg.x
  let y := pt.y - beg.y
  let pdr := i64_mul s.r.x x + i64_mul s.r.y y
  let pcr := i64_mul s.r.x y + i64_mul s.r.y x
  decide (pdr < -s.er) || decide (pdr > s.r2 + s.er) || decide (|pcr| > s.er)

/-- Embeds `RasterizerData::add_quadratic` from src/ass/rasterizer.rs,
returning the list of segments appended to the working buffer, `none`
for a panic.  When the flatness test demands a split, the source
builds `next : [Vector; 5]` and then runs
`let b = next[3..].try_into().unwrap()`: the slice `next[3..]` has
length 2 and can never convert into the expected `[Vector; 3]`, so
that branch panics before any recursive call. -/
def add_quadratic (outline_error : Int) (p0 p1 p2 : Vector) :
    Option (List Polyline.Segment) :=
  let seg := OutlineSegment.new p0 p2 outline_error
  if !(seg.subdivide p0 p1) then some (add_line p0 p2).toList
  else none

/-- Embeds the per-segment translation step at the top of
`RasterizerData::fill` (src/ass/rasterizer.rs lines 303-309), applied
after the offsets have been shifted by `(x0, y0) = (x0 * 1 << 6,
y0 * 1 << 6)`. -/
def translate_segment (x0 y0 : Int) (line : Polyline.Segment) :
    Polyline.Segment :=
  { line with
    x_min := line.x_min - x0
    x_max := line.x_max - x0
    y_min := line.y_min - y0
    y_max := line.y_max - y0
    c := line.c - (i64_mul line.a x0 + i64_mul line.b y0) }

/-- Embeds the whole translation preamble of `RasterizerData::fill`:
shift the device offset into 1/64-pixel units (`x0 * 1 << 6`),
re-express every accumulated segment, and shift the running bounding
box by the same amounts. -/
def fill_translate (segs : List Polyline.Segment) (bbox : Rect)
    (x0 y0 : Int) : List Polyline.Segment × Rect :=
  let x0 := x0 * 1 * 2 ^ 6
  let y0 := y0 * 1 * 2 ^ 6
  (segs.map (translate_segment x0 y0),
   { bbox with
     x_min := bbox.x_min - x0
     x_max := bbox.x_max - x0
     y_min := bbox.y_min - y0
     y_max := bbox.y_max - y0 })

/-- Embeds the three dimension assertions at the entry of
`RasterizerData::fill` (src/ass/rasterizer.rs lines 298-300):
`assert!(width > 0 && height > 0)` and
`assert_ne!(0, width & ((1 << engine.tile_order()) - 1))` (same for
`height`).  For the positive widths at issue, masking the low
`tile_order` bits equals reduction modulo `2 ^ tile_order`, so
`assert_ne` demands a NONZERO remainder. -/
def fill_entry_asserts (tile_order : Nat) (width height : Int) : Prop :=
  width > 0 ∧ height > 0 ∧
    0 ≠ width % 2 ^ tile_order ∧ 0 ≠ height % 2 ^ tile_order

instance (tile_order : Nat) (width height : Int) :
    Decidable (fill_entry_asserts tile_order width height) := by
  unfold fill_entry_asserts; infer_instance

/-! ## Claim theorems -/

/-- Concrete polyline segment used to exhibit the behaviour of the
translation step of `fill`. -/
def seg_fill : Polyline.Segment :=
  { c := 1000, a := 2, b := 3, scale := 0,
    flags := ⟨false, false, false, false, false, false⟩,
    x_min := 0, x_max := 10, y_min := 0, y_max := 10 }

/-- Claim C1: fill's translation step is claimed to reduce each
segment's plane constant `c` by the exact 64-bit product sum
`a*(x0<<6) + b*(y0<<6)`.  Evaluating the code at a segment with
`a = 2`, `b = 3`, `c = 1000` and offset `(1,1)`: the code leaves
`c = 1000 - ((2 + 64) + (3 + 64)) = 867` because `i64_mul` computes a
sum, whereas the claimed exact product sum would give
`1000 - (2*64 + 3*64) = 680`. -/
theorem fill_translate_c_uses_addition :
    ((fill_translate [seg_fill] ⟨0, 0, 10, 10⟩ 1 1).1.map Polyline.Segment.c)
        = [867] ∧
      (867 : Int) ≠ 1000 - (2 * (1 * 2 ^ 6) + 3 * (1 * 2 ^ 6)) := by
  decide

/-- Concrete polyline segment used to exhibit the behaviour of the
split operations. -/
def seg_split : Polyline.Segment :=
  { c := 100, a := 2, b := 3, scale := 0,
    flags := ⟨false, false, false, false, false, false⟩,
    x_min := 0, x_max := 10, y_min := 0, y_max := 10 }

/-- Claim C2: the second piece of `split_horz(x)` is claimed to carry
`c - a*x`, and the second piece of `split_vert(y)` to carry `c - b*y`.
Evaluating the code on a segment with `a = 2`, `b = 3`, `c = 100` and
split coordinate `4`: `split_horz` yields `c = 100 - (2 + 4) = 94`
instead of `100 - 2*4 = 92` (`i64_mul` computes a sum), and
`split_vert` also yields `94` instead of `100 - 3*4 = 88` (it even
uses coefficient `a` rather than `b`). -/
theorem split_c_uses_addition :
    ((seg_split.split_horz 4).map fun p => p.2.c) = some 94 ∧
      (94 : Int) ≠ 100 - 2 * 4 ∧
      ((seg_split.split_vert 4).map fun p => p.2.c) = some 94 ∧
      (94 : Int) ≠ 100 - 3 * 4 := by
  decide

/-- Claim C3: width and height that are positive multiples of the tile
size `2 ^ tile_order` are claimed to pass the dimension assertions at
the entry of `fill`.  With `tile_order = 4` and `width = height = 16`
(one full tile), the assertions fail: `assert_ne!(0, width & mask)`
demands the masked low bits be NONZERO, rejecting every multiple of
the tile size. -/
theorem fill_rejects_tile_multiples :
    (0 : Int) < 16 ∧ (16 : Int) % 2 ^ 4 = 0 ∧
      ¬fill_entry_asserts 4 16 16 := by
  decide

/-- Claim C5: the bbox of the segment pushed by `add_line` is claimed
to be exact, in particular `x_min = min(p0.x, p1.x)`.  Evaluating the
code at `p0 = (1,0)`, `p1 = (0,1)`: the source computes
`x_min = pt0.x.min(pt0.x) = 1`, but `min(p0.x, p1.x) = 0`. -/
theorem add_line_x_min_ignores_pt1 :
    ((add_line ⟨1, 0⟩ ⟨0, 1⟩).map Polyline.Segment.x_min) = some 1 ∧
      min (1 : Int) 0 ≠ 1 := by
  decide

/-- Claim C7: `close_contour` is claimed to clear the open-contour
marker, making a second consecutive call a no-op.  Evaluating the code
on the outline reached by `add_point((0,0), None)` from a fresh
outline: the first `close_contour` appends two points and a Line tag
but leaves `start_of_final_contour = Some(1)` (the `add_point` it
calls re-records a contour start), so the second call appends again
instead of being a no-op. -/
theorem close_contour_reopens_contour :
    add_point (Outline.new 0 0) ⟨0, 0⟩ none =
      (true, { points := [⟨0, 0⟩], segments := [],
               start_of_final_contour := some 0 }) ∧
      close_contour { points := [⟨0, 0⟩], segments := [],
                      start_of_final_contour := some 0 } =
        some { points := [⟨0, 0⟩, ⟨0, 0⟩, ⟨0, 0⟩],
               segments := [SegmentType.LineSegment],
               start_of_final_contour := some 1 } ∧
      close_contour { points := [⟨0, 0⟩, ⟨0, 0⟩, ⟨0, 0⟩],
                      segments := [SegmentType.LineSegment],
                      start_of_final_contour := some 1 } ≠
        some { points := [⟨0, 0⟩, ⟨0, 0⟩, ⟨0, 0⟩],
               segments := [SegmentType.LineSegment],
               start_of_final_contour := some 1 } := by
  decide

/-- Claim C8 (counterexample): an outline holding points
`[p0, p1, p2]` with tags `[Line, Line]` is claimed to yield
`LineSegment(p0, p1)` followed by `LineSegment(p1, p2)`.  At
`p0 = (0,0)`, `p1 = (1,1)`, `p2 = (2,2)` the iterator instead yields
only `LineSegment(p0, p1)`: each Line tag consumes two fresh points and
the second tag finds a single point left. -/
theorem segments_no_endpoint_reuse_cex :
    segmentsList [SegmentType.LineSegment, SegmentType.LineSegment]
        [⟨0, 0⟩, ⟨1, 1⟩, ⟨2, 2⟩] ≠
      [Segment.LineSegment ⟨0, 0⟩ ⟨1, 1⟩,
       Segment.LineSegment ⟨1, 1⟩ ⟨2, 2⟩] := by
  decide

/-- Claim C8 (amended): `segments()` materializes one segment per tag
only while enough points remain, each tag consuming 2 / 3 / 4 fresh
points for Line / Quad / Cubic with no reuse of the previous
endpoint; in particular `[p0, p1, p2]` with tags `[Line, Line]` yields
exactly `[LineSegment(p0, p1)]`. -/
theorem segments_consumption :
    (∀ p0 p1 p2 : Vector,
        segmentsList [SegmentType.LineSegment, SegmentType.LineSegment]
          [p0, p1, p2] = [Segment.LineSegment p0 p1]) ∧
      (∀ (ts : List SegmentType) (pts : List Vector) (p0 p1 : Vector),
        segmentsList (SegmentType.LineSegment :: ts) (p0 :: p1 :: pts) =
          Segment.LineSegment p0 p1 :: segmentsList ts pts) ∧
      (∀ (ts : List SegmentType) (pts : List Vector) (p0 p1 p2 : Vector),
        segmentsList (SegmentType.QuadSpline :: ts) (p0 :: p1 :: p2 :: pts) =
          Segment.QuadSpline p0 p1 p2 :: segmentsList ts pts) ∧
      (∀ (ts : List SegmentType) (pts : List Vector) (p0 p1 p2 p3 : Vector),
        segmentsList (SegmentType.CubicSpline :: ts)
            (p0 :: p1 :: p2 :: p3 :: pts) =
          Segment.CubicSpline p0 p1 p2 p3 :: segmentsList ts pts) :=
  ⟨fun _ _ _ => rfl, fun _ _ _ _ => rfl, fun _ _ _ _ _ => rfl,
   fun _ _ _ _ _ _ => rfl⟩

/-- Claim C9: three colinear control points passed to `add_quadratic`
are claimed to append exactly the segments of `add_line(p0, p2)`.  At
`outline_error = 16` and the colinear triple `(0,0), (100,0), (200,0)`
the flatness test (built on `i64_mul`, which sums instead of
multiplying) reports the chord as not flat, so the code takes the
subdivision branch — which panics converting the length-2 slice
`next[3..]` into `[Vector; 3]` — while `add_line` would have pushed
one segment. -/
theorem add_quadratic_colinear_panics :
    (100 - 0 : Int) * (0 - 0) - (0 - 0) * (200 - 0) = 0 ∧
      add_quadratic 16 ⟨0, 0⟩ ⟨100, 0⟩ ⟨200, 0⟩ = none ∧
      (add_line ⟨0, 0⟩ ⟨200, 0⟩).toList ≠ [] := by
  decide

/-- Claim C10: for a segment straddling the split coordinate, the
first piece returned by `split_horz(x)` keeps every field except
`x_max` and the flag set unchanged, and gets `x_max = x`. -/
theorem split_horz_first_piece_frame (s : Polyline.Segment) (x : Int)
    (h1 : s.x_min < x) (h2 : x < s.x_max) :
    (s.split_horz x).map
        (fun p => (p.1.a, p.1.b, p.1.c, p.1.scale,
                   p.1.x_min, p.1.y_min, p.1.y_max, p.1.x_max)) =
      some (s.a, s.b, s.c, s.scale, s.x_min, s.y_min, s.y_max, x) := by
  rw [Polyline.Segment.split_horz, if_pos ⟨h1, h2⟩]
  rfl

/-- Concrete polyline segment used to instantiate the `split_horz`
frame property. -/
def seg_frame : Polyline.Segment :=
  { c := 100, a := 2, b := 3, scale := 7,
    flags := ⟨false, true, false, false, true, true⟩,
    x_min := 0, x_max := 10, y_min := 0, y_max := 10 }

/-- Witness for claim C10 at a concrete segment and split coordinate. -/
theorem split_horz_first_piece_frame_witness :
    (seg_frame.split_horz 4).map
        (fun p => (p.1.a, p.1.b, p.1.c, p.1.scale,
                   p.1.x_min, p.1.y_min, p.1.y_max, p.1.x_max)) =
      some (seg_frame.a, seg_frame.b, seg_frame.c, seg_frame.scale,
            seg_frame.x_min, seg_frame.y_min, seg_frame.y_max, 4) :=
  split_horz_first_piece_frame seg_frame 4 (by decide) (by decide)

/-- Claim C4 (counterexample): the stored normalized coefficients are
claimed to satisfy `max(|a|,|b|)` having its top bit set in a 32-bit
word, i.e. `max(|a|,|b|) ≥ 2 ^ 31`.  For the line `(0,0) → (1,0)` the
stored coefficients are `a = 0`, `b = -2 ^ 30`: the maximum is
`2 ^ 30`, whose bit 31 is clear (only the value `max_ab` shifted one
step further inside the normalization reaches the top bit). -/
theorem add_line_top_bit_not_set :
    ((add_line ⟨0, 0⟩ ⟨1, 0⟩).map fun s => max s.a.natAbs s.b.natAbs) =
        some (2 ^ 30) ∧
      ¬(2 ^ 31 : Nat) ≤ 2 ^ 30 := by
  decide

/-- The overflow test of `add_point` triggers exactly when the true
absolute value exceeds `MAX_COORD` (saturation at `i32::MIN` lands on
`2 ^ 31 - 1`, still far above `MAX_COORD`). -/
theorem saturating_abs_gt (n : Int) :
    saturating_abs n > MAX_COORD ↔ MAX_COORD < |n| := by
  rw [saturating_abs]
  split
  · rename_i h
    rw [h]
    decide
  · exact Iff.rfl

/-- When the overflow test passes, `add_point` appends the point, the
optional tag, and records a contour start if none is open. -/
theorem add_point_success (o : Outline) (pt : Vector) (tag : Option SegmentType)
    (hcond : ¬(saturating_abs pt.x > MAX_COORD ∨ saturating_abs pt.y > MAX_COORD)) :
    add_point o pt tag =
      (true,
        { points := o.points ++ [pt],
          segments := o.segments ++ tag.toList,
          start_of_final_contour :=
            if o.start_of_final_contour = none then some o.points.length
            else o.start_of_final_contour }) := by
  cases tag <;> by_cases hst : o.start_of_final_contour = none <;>
    simp [add_point, hcond, hst]

/-- Claim C6: `add_point` succeeds for every point with both
coordinates of magnitude at most `MAX_COORD`, appending the point and,
if given, the tag; for any point with a coordinate of magnitude at
least `MAX_COORD + 1` it fails and returns the outline completely
unchanged (no point, no tag, no contour-start change). -/
theorem add_point_checks_max_coord (o : Outline) (pt : Vector)
    (tag : Option SegmentType) :
    (|pt.x| ≤ MAX_COORD → |pt.y| ≤ MAX_COORD →
      (add_point o pt tag).1 = true ∧
        (add_point o pt tag).2.points = o.points ++ [pt] ∧
        (add_point o pt tag).2.segments = o.segments ++ tag.toList) ∧
      (MAX_COORD + 1 ≤ |pt.x| ∨ MAX_COORD + 1 ≤ |pt.y| →
        add_point o pt tag = (false, o)) := by
  constructor
  · intro hx hy
    have hcond :
        ¬(saturating_abs pt.x > MAX_COORD ∨ saturating_abs pt.y > MAX_COORD) := by
      rw [saturating_abs_gt, saturating_abs_gt]
      push_neg
      exact ⟨hx, hy⟩
    rw [add_point_success o pt tag hcond]
    exact ⟨rfl, rfl, rfl⟩
  · intro h
    have hcond :
        saturating_abs pt.x > MAX_COORD ∨ saturating_abs pt.y > MAX_COORD := by
      rcases h with h | h
      · exact Or.inl ((saturating_abs_gt _).2 (lt_of_lt_of_le (lt_add_one _) h))
      · exact Or.inr ((saturating_abs_gt _).2 (lt_of_lt_of_le (lt_add_one _) h))
    rw [add_point, if_pos hcond]

/-- Witness for claim C6: a coordinate of exactly `MAX_COORD`
succeeds and appends; `2 ^ 28 = MAX_COORD + 1` fails and leaves the
outline unchanged. -/
theorem add_point_checks_max_coord_witness :
    ((add_point (Outline.new 0 0) ⟨2 ^ 28 - 1, 5⟩
          (some SegmentType.LineSegment)).1 = true ∧
        (add_point (Outline.new 0 0) ⟨2 ^ 28 - 1, 5⟩
            (some SegmentType.LineSegment)).2.points =
          (Outline.new 0 0).points ++ [⟨2 ^ 28 - 1, 5⟩] ∧
        (add_point (Outline.new 0 0) ⟨2 ^ 28 - 1, 5⟩
            (some SegmentType.LineSegment)).2.segments =
          (Outline.new 0 0).segments ++
            (some SegmentType.LineSegment).toList) ∧
      add_point (Outline.new 0 0) ⟨2 ^ 28, 0⟩ none =
        (false, Outline.new 0 0) :=
  ⟨(add_point_checks_max_coord (Outline.new 0 0) ⟨2 ^ 28 - 1, 5⟩
      (some SegmentType.LineSegment)).1 (by decide) (by decide),
   (add_point_checks_max_coord (Outline.new 0 0) ⟨2 ^ 28, 0⟩ none).2
      (Or.inl (by decide))⟩

/-- `bitLen` of zero is zero at any fuel. -/
theorem bitLen_zero (fuel : Nat) : bitLen fuel 0 = 0 := by
  cases fuel <;> simp [bitLen]

/-- `bitLen` computes the bit length: a value between `2 ^ l` and
`2 ^ (l+1)` has bit length `l + 1` (given enough fuel). -/
theorem bitLen_eq : ∀ fuel l m : Nat, l < fuel → 2 ^ l ≤ m → m < 2 ^ (l + 1) →
    bitLen fuel m = l + 1
  | 0, l, _, hfu, _, _ => absurd hfu (Nat.not_lt_zero l)
  | fuel + 1, l, m, hfu, h1, h2 => by
    have hpow : 0 < 2 ^ l := Nat.pow_pos (by norm_num)
    have hm : m ≠ 0 := by omega
    rw [bitLen, if_neg hm]
    cases l with
    | zero =>
      have hm1 : m = 1 := by omega
      subst hm1
      simp [bitLen_zero]
    | succ l' =>
      have hd1 : 2 ^ l' ≤ m / 2 := by
        rw [Nat.le_div_iff_mul_le (by norm_num)]
        rw [← Nat.pow_succ]
        exact h1
      have hd2 : m / 2 < 2 ^ (l' + 1) := by
        rw [Nat.div_lt_iff_lt_mul (by norm_num)]
        rw [← Nat.pow_succ]
        exact h2
      rw [bitLen_eq fuel l' (m / 2) (by omega) hd1 hd2]

/-- Multiplication by a common factor distributes over `max` on `Nat`. -/
theorem nat_max_mul_right (a b c : Nat) : max (a * c) (b * c) = max a b * c := by
  rcases Nat.le_total a b with h | h
  · rw [Nat.max_eq_right h, Nat.max_eq_right (Nat.mul_le_mul_right c h)]
  · rw [Nat.max_eq_left h, Nat.max_eq_left (Nat.mul_le_mul_right c h)]

/-- A coordinate within `MAX_COORD` has `natAbs` at most
`268435455 = 2 ^ 28 - 1`. -/
theorem natAbs_le_of_abs_le {a : Int} (h : |a| ≤ MAX_COORD) :
    a.natAbs ≤ 268435455 := by
  rw [Int.abs_eq_natAbs] at h
  have hM : MAX_COORD = (268435455 : Int) := by norm_num [MAX_COORD]
  rw [hM] at h
  exact_mod_cast h

/-- For a non-degenerate direction, `add_line` pushes a segment whose
normalized coefficients are the direction components scaled by
`2 ^ shift` with `shift = leading_zeros(max_ab) - 1`. -/
theorem add_line_a_b (pt0 pt1 : Vector)
    (hnz : ¬(pt1.x - pt0.x = 0 ∧ pt1.y - pt0.y = 0)) :
    ∃ s : Polyline.Segment, add_line pt0 pt1 = some s ∧
      s.a = (pt1.y - pt0.y) *
          2 ^ (leading_zeros (max (u32_abs (pt1.x - pt0.x))
              (u32_abs (pt1.y - pt0.y))) - 1) ∧
      s.b = -(pt1.x - pt0.x) *
          2 ^ (leading_zeros (max (u32_abs (pt1.x - pt0.x))
              (u32_abs (pt1.y - pt0.y))) - 1) := by
  simp only [add_line]
  rw [if_neg hnz]
  exact ⟨_, rfl, rfl, rfl⟩

/-- Claim C4 (amended): for every non-degenerate line whose endpoints
respect the `MAX_COORD` bound (as asserted by `set_outline`), the
segment pushed by `add_line` has `max(|a|, |b|)` in `[2 ^ 30, 2 ^ 31)`
— bit 30 set; it is the internal `max_ab`, shifted one step further
than `a` and `b`, that reaches the 32-bit top bit — and the original
direction is recoverable from `(a, b)` and the applied shift:
`a = dy * 2 ^ shift` and `b = -dx * 2 ^ shift` exactly. -/
theorem add_line_normalization (pt0 pt1 : Vector)
    (h0x : |pt0.x| ≤ MAX_COORD) (h0y : |pt0.y| ≤ MAX_COORD)
    (h1x : |pt1.x| ≤ MAX_COORD) (h1y : |pt1.y| ≤ MAX_COORD)
    (hnz : ¬(pt1.x - pt0.x = 0 ∧ pt1.y - pt0.y = 0)) :
    ∃ (s : Polyline.Segment) (shift : Nat),
      add_line pt0 pt1 = some s ∧
        s.a = (pt1.y - pt0.y) * 2 ^ shift ∧
        s.b = -(pt1.x - pt0.x) * 2 ^ shift ∧
        2 ^ 30 ≤ max s.a.natAbs s.b.natAbs ∧
        max s.a.natAbs s.b.natAbs < 2 ^ 31 := by
  obtain ⟨s, hs, ha, hb⟩ := add_line_a_b pt0 pt1 hnz
  set m := max (u32_abs (pt1.x - pt0.x)) (u32_abs (pt1.y - pt0.y)) with hm
  have b0x := natAbs_le_of_abs_le h0x
  have b0y := natAbs_le_of_abs_le h0y
  have b1x := natAbs_le_of_abs_le h1x
  have b1y := natAbs_le_of_abs_le h1y
  have hax : (pt1.x - pt0.x).natAbs < 1073741824 := by
    have h := Int.natAbs_sub_le pt1.x pt0.x
    omega
  have hay : (pt1.y - pt0.y).natAbs < 1073741824 := by
    have h := Int.natAbs_sub_le pt1.y pt0.y
    omega
  have hmlt : m < 1073741824 := by
    rw [hm]
    exact Nat.max_lt.mpr ⟨hax, hay⟩
  have hm0 : m ≠ 0 := by
    rw [hm, Ne, Nat.max_eq_zero_iff]
    intro hcontra
    exact hnz ⟨Int.natAbs_eq_zero.mp hcontra.1, Int.natAbs_eq_zero.mp hcontra.2⟩
  have hl1 : 2 ^ Nat.log 2 m ≤ m := Nat.pow_log_le_self 2 hm0
  have hl2 : m < 2 ^ (Nat.log 2 m + 1) := Nat.lt_pow_succ_log_self (by norm_num) m
  have hl29 : Nat.log 2 m ≤ 29 := by
    by_contra hcon
    push_neg at hcon
    have h30 : (2 : Nat) ^ 30 ≤ 2 ^ Nat.log 2 m :=
      Nat.pow_le_pow_right (by norm_num) hcon
    have hle : (2 : Nat) ^ 30 ≤ m := le_trans h30 hl1
    have h2n : (2 : Nat) ^ 30 = 1073741824 := by norm_num
    omega
  have hbit : bitLen 32 m = Nat.log 2 m + 1 :=
    bitLen_eq 32 (Nat.log 2 m) m (by omega) hl1 hl2
  have hsh : leading_zeros m - 1 = 30 - Nat.log 2 m := by
    rw [leading_zeros, hbit]
    omega
  have habs : max s.a.natAbs s.b.natAbs = m * 2 ^ (30 - Nat.log 2 m) := by
    rw [ha, hb, hsh]
    simp only [Int.natAbs_mul, Int.natAbs_neg, Int.natAbs_pow, Int.natAbs_ofNat]
    rw [hm]
    simp only [u32_abs]
    rw [nat_max_mul_right, Nat.max_comm]
    norm_num
  refine ⟨s, 30 - Nat.log 2 m, hs, ?_, ?_, ?_, ?_⟩
  · rw [ha, hsh]
  · rw [hb, hsh]
  · rw [habs]
    calc (2 : Nat) ^ 30 = 2 ^ Nat.log 2 m * 2 ^ (30 - Nat.log 2 m) := by
          rw [← pow_add]
          congr 1
          omega
      _ ≤ m * 2 ^ (30 - Nat.log 2 m) := Nat.mul_le_mul_right _ hl1
  · rw [habs]
    calc m * 2 ^ (30 - Nat.log 2 m)
        < 2 ^ (Nat.log 2 m + 1) * 2 ^ (30 - Nat.log 2 m) := by
          exact Nat.mul_lt_mul_of_lt_of_le hl2 (le_refl _) (Nat.pow_pos (by norm_num))
      _ = 2 ^ 31 := by
          rw [← pow_add]
          congr 1
          omega

/-- Witness for claim C4 (amended) at the line `(0,0) → (3,5)`. -/
theorem add_line_normalization_witness :
    ∃ (s : Polyline.Segment) (shift : Nat),
      add_line ⟨0, 0⟩ ⟨3, 5⟩ = some s ∧
        s.a = ((⟨3, 5⟩ : Vector).y - (⟨0, 0⟩ : Vector).y) * 2 ^ shift ∧
        s.b = -((⟨3, 5⟩ : Vector).x - (⟨0, 0⟩ : Vector).x) * 2 ^ shift ∧
        2 ^ 30 ≤ max s.a.natAbs s.b.natAbs ∧
        max s.a.natAbs s.b.natAbs < 2 ^ 31 :=
  add_line_normalization ⟨0, 0⟩ ⟨3, 5⟩ (by decide) (by decide) (by decide)
    (by decide) (by decide)
